import Mathlib

/-!
Shallow embedding of `iree/compiler/Dialect/LinalgExt/Transforms/Tiling.cpp`.

IR `Value`s are modelled symbolically: each constructor of `Val` stands for a
way an SSA value is produced in the source (a `ConstantIndexOp`, a loop
induction variable, an `AffineMinOp`, an `AffineApplyOp` add/mul, a loop block
argument, an `scf.for` result, a result of the tiled leaf operation, or a
`tensor.insert_slice` result).  Opaque values coming from outside the
transformation are `Val.var`.
-/

namespace IreeLinalgExt

/-- Symbolic model of an MLIR `Value`. -/
inductive Val where
  | constIndex : Int → Val
  | var : Nat → Val
  | iv : Nat → Val
  | affineMin : Val → Val → Val → Val
  | add : Val → Val → Val
  | mul : Val → Val → Val
  | iterArg : Nat → Nat → Val
  | forResult : Nat → Nat → Val
  | tiledResult : Nat → Val
  | insertSlice : Val → Val → Val
  deriving DecidableEq, Repr, Inhabited

/-- Model of `OpFoldResult`: either an `IntegerAttr` (compile-time constant)
or a runtime `Value`. -/
inductive OpFoldResult where
  | attr : Int → OpFoldResult
  | value : Val → OpFoldResult
  deriving DecidableEq, Repr, Inhabited

/-- Converts a `Value` to an `OpFoldResult` by extracting the constant value
if the value is defined by a constant op (`matchPattern` with
`m_ConstantInt`); otherwise the value itself is returned. -/
def getOpFoldResult : Val → OpFoldResult
  | .constIndex n => .attr n
  | v => .value v

/-- Vector overload of `getOpFoldResult` (maps it over the values). -/
def getOpFoldResultVector (values : List Val) : List OpFoldResult :=
  values.map getOpFoldResult

/-- Converts an `OpFoldResult` to a `Value` by building a `ConstantIndexOp`
if the `OpFoldResult` is an `IntegerAttr`. -/
def getValue : OpFoldResult → Val
  | .attr n => .constIndex n
  | .value v => v

/-- Returns true if the loop is untiled: the `OpFoldResult` is an attribute
with value zero.  (A `Value` defined by a constant op is assumed to have been
converted to an `IntegerAttr` already.) -/
def isUntiledLoop : OpFoldResult → Bool
  | .attr n => n == 0
  | .value _ => false

/-- Model of `mlir::Range`: a loop bound as `(offset, size, stride)`. -/
structure Range where
  offset : Val
  size : Val
  stride : Val
  deriving DecidableEq, Repr, Inhabited

/-- Model of `linalg::ProcInfo`: a distributed processor id / count pair. -/
structure ProcInfo where
  procId : Val
  nprocs : Val
  deriving DecidableEq, Repr, Inhabited

/-- Result of `getParallelIteratorTypeName()`. -/
def parallelIteratorTypeName : String := "parallel"

/-- Model of `matchPattern(v, m_One())`: the value is defined by a constant
op with value one. -/
def isStaticallyOne : Val → Bool
  | .constIndex n => n == 1
  | _ => false

/-- Model of `linalg::DistributionMethod` (the 2021 MLIR enum). -/
inductive DistributionMethod where
  | Cyclic
  | CyclicNumProcsGeNumIters
  | CyclicNumProcsEqNumIters
  deriving DecidableEq, Repr

/-- Model of `linalg::LinalgTilingLoopType`. -/
inductive LinalgTilingLoopType where
  | Loops
  | AffineLoops
  | ParallelLoops
  | TiledLoops
  deriving DecidableEq, Repr

/-- Model of `linalg::LinalgLoopDistributionOptions`: the `procInfo` callback
(given the ranges of the distributed loops, produce one `ProcInfo` per range)
and the per-dimension distribution methods. -/
structure LinalgLoopDistributionOptions where
  procInfo : List Range → List ProcInfo
  distributionMethod : List DistributionMethod

/-- Model of `linalg::LinalgTilingOptions`.  The tile-size computation
function is abstracted as the list of `Value`s it returns for the operation
at hand; the padding-value computation function is abstracted as whether one
was supplied. -/
structure LinalgTilingOptions where
  tileSizeComputationFunction : List Val
  interchangeVector : List Nat := []
  paddingValueComputationFunction : Bool := false
  loopType : LinalgTilingLoopType := .Loops
  distribution : Option LinalgLoopDistributionOptions := none

/-- Returns failure (the match-failure message) if the options are
unsupported; mirrors `verifySupportedTilingOptions`.  The check is pure: it
is performed in `matchAndRewriteBase` before any rewrite of the IR. -/
def verifySupportedTilingOptions (options : LinalgTilingOptions) :
    Except String Unit :=
  if ¬ options.interchangeVector.isEmpty then
    .error "unsupported interchange during tiling"
  else if options.paddingValueComputationFunction then
    .error "unsupported tile + pad option"
  else if options.loopType ≠ LinalgTilingLoopType.Loops then
    .error "only tiling with scf.for is supported"
  else
    match options.distribution with
    | some dist =>
      if dist.distributionMethod.any
          (fun method => method ≠ DistributionMethod.Cyclic) then
        .error "only cyclic distibution is allowed"
      else .ok ()
    | none => .ok ()

/-- Model of the generated operations that the transformation records.
An `scf.for` loop remembers the loop depth at which it was created (the
logical dimension it iterates over), its bounds and step, and — as
instrumentation of `updateBoundsForCyclicDistribution` — the distribution
entry (if any) that was folded into those bounds.  `tiledLeaf` is the
operation produced by `getTiledImplementation`; `original` stands for the
untouched input operation. -/
inductive Operation where
  | scfFor : Nat → Val → Val → Val → Option ProcInfo → Operation
  | tiledLeaf : Nat → Operation
  | original : Operation
  deriving DecidableEq, Repr, Inhabited

/-- Model of the `TiledOp` result record: the generated (or original)
operation, the generated loops (outermost first) and the result values. -/
structure TiledOp where
  op : Option Operation := none
  loops : List Operation := []
  results : List Val := []
  deriving DecidableEq, Repr, Inhabited

/-- Result of `TiledOpInterface::getTiledImplementation`: the tiled
operation (identified by its number of results) together with the offsets at
which each result is inserted back into the outputs. -/
structure TiledImplementation where
  numResults : Nat
  resultOffsets : List (List OpFoldResult)
  deriving Repr, Inhabited

/-- Model of the `TiledOpInterface` capability: per-dimension iterator
types, per-dimension loop bounds, the number of results of the operation,
and the tiled-implementation method (given outputs, tile offsets and tile
sizes). -/
structure TiledOpInterface where
  numResults : Nat
  loopIteratorTypes : List String
  loopBounds : List Range
  tiledImplementation :
    List Val → List OpFoldResult → List OpFoldResult →
      Option TiledImplementation

/-- Modelled from the spec: `linalg::updateBoundsForCyclicDistribution` is
not part of the excerpted sources.  Per the spec, the processor id selects
the starting offset and the processor count selects the stride multiplier:
`lb := lb + procId * step`, `ub` unchanged, `step := nprocs * step`. -/
def updateBoundsForCyclicDistribution (procId nprocs lb ub step : Val) :
    Val × Val × Val :=
  (.add lb (.mul procId step), ub, .mul nprocs step)

/-- Leaf of the recursion (lines 120-153 of the source): invoke
`getTiledImplementation`; on failure emit the op error, otherwise — when
the operation has results — insert each result of the tiled operation into
the corresponding output with a `tensor.insert_slice` (recorded here by
its inserted value and destination) and return those inserted values as
the results. -/
def tileLinalgExtOpLeaf (op : TiledOpInterface) (outputs : List Val)
    (offsets : List OpFoldResult) (tileSizes : List OpFoldResult) :
    Except String TiledOp :=
  match op.tiledImplementation outputs offsets tileSizes with
  | none => .error "failed to get tiled implementation"
  | some tiledOp =>
    if tiledOp.numResults ≠ 0 then
      .ok { op := some (.tiledLeaf tiledOp.numResults),
            results := (List.range tiledOp.numResults).map fun i =>
              Val.insertSlice (Val.tiledResult i) (outputs.getD i default) }
    else
      .ok { op := some (.tiledLeaf tiledOp.numResults) }

/-- Post-processing of a tiled dimension (lines 209-215 of the source): on
recursive failure propagate it; on success prepend the newly created
`scf.for` to the inner loops and replace the results with the loop's own
result handles. -/
def appendGeneratedLoop (forOp : Operation) (loopDepth numInit : Nat) :
    Except String TiledOp → Except String TiledOp
  | .error e => .error e
  | .ok inner =>
    .ok { inner with
          loops := forOp :: inner.loops,
          results := (List.range numInit).map (Val.forResult loopDepth) }

/-- Generates the tiled loops and the body by invoking the interface
methods of `TiledOpInterface`; mirrors `tileLinalgExtOpImpl`.

The source recursion terminates when `loopDepth == tileSizes.size()`; the
function is only ever invoked with `loopDepth ≤ tileSizes.size()`, so the
guard is written `tileSizes.length ≤ loopDepth` to serve as the
well-founded base case.  In-place mutation of `tileSizes` and `offsets`
(`MutableArrayRef` / `SmallVectorImpl&` in the source) becomes passing the
updated lists to the recursive call.  The induction variable of the loop at
depth `d` is the symbolic value `Val.iv d`, and the block arguments of its
body are `Val.iterArg d i`. -/
def tileLinalgExtOpImpl (op : TiledOpInterface) (outputs : List Val)
    (tileSizes : List OpFoldResult) (iteratorTypes : List String)
    (loopBounds : List Range) (loopDepth : Nat)
    (offsets : List OpFoldResult) (distributionInfo : List ProcInfo) :
    Except String TiledOp :=
  -- If this is the innermost loop, then generate the tiled implementation
  -- of the op by invoking the TiledOpInterface methods.
  if _h : tileSizes.length ≤ loopDepth then
    tileLinalgExtOpLeaf op outputs offsets tileSizes
  else
    -- If tile size at this depth is empty, do nothing.
    if isUntiledLoop (tileSizes.getD loopDepth default) then
      tileLinalgExtOpImpl op outputs
        (tileSizes.set loopDepth
          (getOpFoldResult (loopBounds.getD loopDepth default).size))
        iteratorTypes loopBounds (loopDepth + 1)
        (offsets ++ [OpFoldResult.attr 0]) distributionInfo
    else
      -- Generate an scf.for for the current loop depth.
      if ¬ isStaticallyOne (loopBounds.getD loopDepth default).stride then
        .error "expected stride to be 1"
      else
        let lb := (loopBounds.getD loopDepth default).offset
        let ub := (loopBounds.getD loopDepth default).size
        let step := getValue (tileSizes.getD loopDepth default)
        -- Update lb, ub and step for cyclic distribution; the front entry
        -- (when the dimension is parallel and entries remain) is consumed
        -- and dropped before recursing into the loop body.
        let distHere : Option ProcInfo :=
          if iteratorTypes.getD loopDepth "" = parallelIteratorTypeName
          then distributionInfo.head? else none
        let bounds2 :=
          distHere.elim (lb, ub, step) fun front =>
            updateBoundsForCyclicDistribution front.procId front.nprocs
              lb ub step
        let distributionInfo2 :=
          distHere.elim distributionInfo fun _ => distributionInfo.drop 1
        let isBufferTiling := op.numResults == 0
        let initValues : List Val := if isBufferTiling then [] else outputs
        -- Body of the scf.for: push the induction variable as this
        -- dimension's offset, clamp the tile size with an affine.min of
        -- the declared size and `ub - iv`, and recurse to the next depth.
        let inBoundsTileSize :=
          Val.affineMin (Val.iv loopDepth)
            (getValue (tileSizes.getD loopDepth default)) bounds2.2.1
        let args := (List.range initValues.length).map (Val.iterArg loopDepth)
        appendGeneratedLoop
          (Operation.scfFor loopDepth bounds2.1 bounds2.2.1 bounds2.2.2
            distHere)
          loopDepth initValues.length
          (tileLinalgExtOpImpl op (if isBufferTiling then outputs else args)
            (tileSizes.set loopDepth (getOpFoldResult inBoundsTileSize))
            iteratorTypes loopBounds (loopDepth + 1)
            (offsets ++ [OpFoldResult.value (Val.iv loopDepth)])
            distributionInfo2)
termination_by tileSizes.length - loopDepth
decreasing_by
  all_goals simp [List.length_set]; omega

/-- Model of a `LinalgExtOp`: whether it implements `TiledOpInterface`
(result of the `dyn_cast`) and its `outputs()` operand list. -/
structure LinalgExtOp where
  tiledOpInterface : Option TiledOpInterface
  outputs : List Val

/-- Model of `SmallVector::resize(n, zeroAttr)`: truncate or pad with the
zero attribute up to length `n`. -/
def resizeTileSizes (tileSizes : List OpFoldResult) (n : Nat) :
    List OpFoldResult :=
  tileSizes.take n ++ List.replicate (n - tileSizes.length) (.attr 0)

/-- Tile sizes actually used by `tileLinalgExtOp` (lines 231-232 of the
source): the requested sizes with constants folded to attributes, resized
to the number of loop dimensions with zero padding. -/
def paddedTileSizes (options : LinalgTilingOptions)
    (tilableOp : TiledOpInterface) : List OpFoldResult :=
  resizeTileSizes (getOpFoldResultVector options.tileSizeComputationFunction)
    tilableOp.loopIteratorTypes.length

/-- Loop ranges handed to the distribution policy (lines 254-259 of the
source): the bounds of the dimensions that are tiled (tile size not
statically zero) and parallel, in increasing dimension order. -/
def distributedLoopRanges (tileSizes : List OpFoldResult)
    (iteratorTypes : List String) (loopBounds : List Range) : List Range :=
  (List.range tileSizes.length).filterMap fun i =>
    if isUntiledLoop (tileSizes.getD i default) then none
    else if iteratorTypes.getD i "" ≠ parallelIteratorTypeName then none
    else some (loopBounds.getD i default)

/-- Mirrors `tileLinalgExtOp`: the top-level entry point tiling one
operation.  Returns the empty `TiledOp` sentinel when the operation does
not implement `TiledOpInterface`, errors on a non-zero tile size for a
non-parallel dimension, short-circuits when every tile size is statically
zero, computes the distribution info and invokes the recursive builder at
depth 0. -/
def tileLinalgExtOp (op : LinalgExtOp) (options : LinalgTilingOptions) :
    Except String TiledOp :=
  match op.tiledOpInterface with
  | none => .ok {}
  | some tilableOp =>
    let iteratorTypes := tilableOp.loopIteratorTypes
    let tileSizes := paddedTileSizes options tilableOp
    if (List.range iteratorTypes.length).any (fun i =>
        !(iteratorTypes.getD i "" == parallelIteratorTypeName) &&
        !(isUntiledLoop (tileSizes.getD i default))) then
      .error "unimplemented tiling of non-parallel loop iterator type"
    -- Trivial early exit case of tile sizes being zero for all parallel
    -- loops.
    else if tileSizes.all isUntiledLoop then
      .ok { op := some .original }
    else
      let loopBounds := tilableOp.loopBounds
      let distributionInfo :=
        match options.distribution with
        | some dist =>
          dist.procInfo
            (distributedLoopRanges tileSizes iteratorTypes loopBounds)
        | none => []
      tileLinalgExtOpImpl tilableOp op.outputs tileSizes iteratorTypes
        loopBounds 0 [] distributionInfo

/-- Loop depth (logical dimension) recorded in a generated `scf.for`. -/
def Operation.forDepth : Operation → Nat
  | .scfFor d _ _ _ _ => d
  | _ => 0

/-- Distribution entry consumed by a generated `scf.for`, paired with the
dimension of that loop; `none` for loops that consumed no entry. -/
def Operation.distAssignment : Operation → Option (Nat × ProcInfo)
  | .scfFor d _ _ _ (some p) => some (d, p)
  | _ => none

/-- Dimension `i` is tiled (tile size not statically zero) and parallel. -/
def isTiledParallel (tileSizes : List OpFoldResult)
    (iteratorTypes : List String) (i : Nat) : Bool :=
  !(isUntiledLoop (tileSizes.getD i default)) &&
  (iteratorTypes.getD i "" == parallelIteratorTypeName)

/-- Dimensions that are both tiled (tile size not statically zero) and
parallel, in increasing order. -/
def tiledParallelDims (tileSizes : List OpFoldResult)
    (iteratorTypes : List String) : List Nat :=
  (List.range tileSizes.length).filter (isTiledParallel tileSizes iteratorTypes)

/-!
Arithmetic model of the execution of one generated `scf.for` loop.

An `scf.for` with lower bound `lb`, upper bound `ub` and step `step` runs
its body for the induction values `lb, lb + step, lb + 2*step, …` while
they are `< ub`.  `loopIVsAux` enumerates them with an explicit fuel;
`(ub - lb).toNat` is enough fuel whenever `1 ≤ step`.
-/

/-- Induction values of an `scf.for`, fuelled enumeration. -/
def loopIVsAux (step ub : Int) : Nat → Int → List Int
  | 0, _ => []
  | fuel + 1, lb =>
    if lb < ub then lb :: loopIVsAux step ub fuel (lb + step) else []

/-- Induction values visited by an `scf.for lb ub step` (for `1 ≤ step`). -/
def loopIVs (lb ub step : Int) : List Int :=
  loopIVsAux step ub (ub - lb).toNat lb

/-- Integer semantics of the `AffineMinOp` built in the loop body: the
affine maps are `(d0)[s0, s1] -> (s0, s1 - d0)` applied to `d0 = iv`,
`s0 =` declared tile size, `s1 = ub`, so the value is
`min (declared tile size) (ub - iv)`. -/
def evalAffineMin (iv tileSize ub : Int) : Int :=
  min tileSize (ub - iv)

/-- Tile size used in each iteration of a tiled loop: the clamped
`affine.min` value at each induction value. -/
def inBoundsTileSizes (lb ub step tileSize : Int) : List Int :=
  (loopIVs lb ub step).map fun iv => evalAffineMin iv tileSize ub

/-!
Concrete operations, options and capabilities used by the witnesses and
the counterexample below.
-/

/-- Sample tiling options shared by the concrete witnesses below. -/
def sampleOptions : LinalgTilingOptions :=
  { tileSizeComputationFunction := [.constIndex 10, .constIndex 0] }

/-- Concrete loop bounds shared by the witnesses: `[0, 100)` stride 1 and
`[0, 50)` stride 1. -/
def sampleBounds : List Range :=
  [⟨.constIndex 0, .constIndex 100, .constIndex 1⟩,
   ⟨.constIndex 0, .constIndex 50, .constIndex 1⟩]

/-- Concrete capability shared by the witnesses: a buffer-semantics
operation with two parallel dimensions. -/
def sampleInterface : TiledOpInterface :=
  { numResults := 0,
    loopIteratorTypes := ["parallel", "parallel"],
    loopBounds := sampleBounds,
    tiledImplementation := fun _ _ _ =>
      some { numResults := 0, resultOffsets := [] } }

/-- Concrete operation shared by the witnesses. -/
def sampleOp : LinalgExtOp :=
  { tiledOpInterface := some sampleInterface, outputs := [] }

/-- Concrete capability with an inner reduction dimension, for the
non-parallel witnesses. -/
def sampleReduceInterface : TiledOpInterface :=
  { numResults := 0,
    loopIteratorTypes := ["parallel", "reduction"],
    loopBounds := sampleBounds,
    tiledImplementation := fun _ _ _ =>
      some { numResults := 0, resultOffsets := [] } }

/-- Concrete operation with an inner reduction dimension. -/
def sampleReduceOp : LinalgExtOp :=
  { tiledOpInterface := some sampleReduceInterface, outputs := [] }

/-- Tile sizes 10 and 20 for both dimensions. -/
def sampleOptionsBoth : LinalgTilingOptions :=
  { tileSizeComputationFunction := [.constIndex 10, .constIndex 20] }

/-- Concrete capability with three dimensions, the middle one a reduction. -/
def sampleDistInterface : TiledOpInterface :=
  { numResults := 0,
    loopIteratorTypes := ["parallel", "reduction", "parallel"],
    loopBounds := [⟨.constIndex 0, .constIndex 100, .constIndex 1⟩,
                   ⟨.constIndex 0, .constIndex 50, .constIndex 1⟩,
                   ⟨.constIndex 0, .constIndex 70, .constIndex 1⟩],
    tiledImplementation := fun _ _ _ =>
      some { numResults := 0, resultOffsets := [] } }

/-- Concrete operation for the distribution witness. -/
def sampleDistOp : LinalgExtOp :=
  { tiledOpInterface := some sampleDistInterface, outputs := [] }

/-- Concrete distribution policy: one `(procId, nprocs)` pair per requested
range. -/
def sampleDistPolicy : LinalgLoopDistributionOptions :=
  { procInfo := fun ranges => (List.range ranges.length).map
      (fun i => ⟨Val.var i, Val.var (100 + i)⟩),
    distributionMethod := [.Cyclic, .Cyclic, .Cyclic] }

/-- Tile sizes 10, 0, 30 with the sample distribution policy. -/
def sampleDistOptions : LinalgTilingOptions :=
  { tileSizeComputationFunction := [.constIndex 10, .constIndex 0,
      .constIndex 30],
    distribution := some sampleDistPolicy }

/-- Expected tiled result of the distribution witness run. -/
def sampleDistResult : TiledOp :=
  { op := some (.tiledLeaf 0),
    loops := [.scfFor 0 (.add (.constIndex 0) (.mul (.var 0) (.constIndex 10)))
        (.constIndex 100) (.mul (.var 100) (.constIndex 10))
        (some ⟨.var 0, .var 100⟩),
      .scfFor 2 (.add (.constIndex 0) (.mul (.var 1) (.constIndex 30)))
        (.constIndex 70) (.mul (.var 101) (.constIndex 30))
        (some ⟨.var 1, .var 101⟩)],
    results := [] }

/-- Concrete capability whose second (untiled) dimension has stride 2. -/
def strideTwoUntiledInterface : TiledOpInterface :=
  { numResults := 0,
    loopIteratorTypes := ["parallel", "parallel"],
    loopBounds := [⟨.constIndex 0, .constIndex 100, .constIndex 1⟩,
                   ⟨.constIndex 0, .constIndex 50, .constIndex 2⟩],
    tiledImplementation := fun _ _ _ =>
      some { numResults := 0, resultOffsets := [] } }

/-- Concrete operation whose second dimension bound has stride 2. -/
def strideTwoUntiledOp : LinalgExtOp :=
  { tiledOpInterface := some strideTwoUntiledInterface, outputs := [] }

/-- Concrete capability whose first (tiled) dimension has stride 2. -/
def strideTwoTiledInterface : TiledOpInterface :=
  { numResults := 0,
    loopIteratorTypes := ["parallel", "parallel"],
    loopBounds := [⟨.constIndex 0, .constIndex 100, .constIndex 2⟩,
                   ⟨.constIndex 0, .constIndex 50, .constIndex 1⟩],
    tiledImplementation := fun _ _ _ =>
      some { numResults := 0, resultOffsets := [] } }

/-- Concrete operation whose first dimension bound has stride 2. -/
def strideTwoTiledOp : LinalgExtOp :=
  { tiledOpInterface := some strideTwoTiledInterface, outputs := [] }

/-!
General helper lemmas.
-/

theorem getD_set_of_ne {α : Type} (l : List α) (i j : Nat) (v d : α)
    (h : i ≠ j) : (l.set i v).getD j d = l.getD j d := by
  simp [List.getD_eq_getElem?_getD, List.getElem?_set_ne h]

theorem resizeTileSizes_length (l : List OpFoldResult) (n : Nat) :
    (resizeTileSizes l n).length = n := by
  simp [resizeTileSizes]
  omega

theorem paddedTileSizes_length (options : LinalgTilingOptions)
    (tilableOp : TiledOpInterface) :
    (paddedTileSizes options tilableOp).length =
      tilableOp.loopIteratorTypes.length := by
  unfold paddedTileSizes
  exact resizeTileSizes_length _ _

/-- C10: converting a constant-defined value to an `OpFoldResult` yields the
integer attribute of that constant, converting an integer attribute back to
a value materializes a constant-index operation with the same integer, and
the two helpers therefore form a value-preserving round trip on
constant-defined values. -/
theorem constant_fold_roundtrip (n : Int) :
    getOpFoldResult (Val.constIndex n) = OpFoldResult.attr n ∧
    getValue (OpFoldResult.attr n) = Val.constIndex n ∧
    getValue (getOpFoldResult (Val.constIndex n)) = Val.constIndex n :=
  ⟨rfl, rfl, rfl⟩

/-- C9: when the operation does not implement `TiledOpInterface`,
`tileLinalgExtOp` succeeds with the empty `TiledOp` sentinel (no operation,
no loops, no results) instead of returning an error. -/
theorem tile_no_interface_sentinel (op : LinalgExtOp)
    (options : LinalgTilingOptions) (h : op.tiledOpInterface = none) :
    tileLinalgExtOp op options =
      .ok { op := none, loops := [], results := [] } := by
  unfold tileLinalgExtOp
  rw [h]

theorem tile_no_interface_sentinel_witness :
    ({ tiledOpInterface := none, outputs := [] } : LinalgExtOp).tiledOpInterface
        = none ∧
    tileLinalgExtOp { tiledOpInterface := none, outputs := [] } sampleOptions =
      .ok { op := none, loops := [], results := [] } :=
  ⟨rfl, tile_no_interface_sentinel _ _ rfl⟩

/-- C7: for a dimension whose declared tile size is statically zero, the
recursive builder records a zero offset for the dimension, rewrites the
dimension's tile size to the entire bound size, and recurses to the next
depth without emitting any loop: its result is exactly the result of the
recursive call at depth + 1.  No hypothesis on
`(loopBounds.getD loopDepth default).offset` is needed: the lower bound
being statically zero is an unchecked precondition (a debug-build `assert`
in the source), not a runtime-recoverable error path. -/
theorem untiled_dim_step (op : TiledOpInterface) (outputs : List Val)
    (tileSizes : List OpFoldResult) (iteratorTypes : List String)
    (loopBounds : List Range) (loopDepth : Nat)
    (offsets : List OpFoldResult) (distributionInfo : List ProcInfo)
    (hd : loopDepth < tileSizes.length)
    (hu : isUntiledLoop (tileSizes.getD loopDepth default) = true) :
    tileLinalgExtOpImpl op outputs tileSizes iteratorTypes loopBounds
        loopDepth offsets distributionInfo =
      tileLinalgExtOpImpl op outputs
        (tileSizes.set loopDepth
          (getOpFoldResult (loopBounds.getD loopDepth default).size))
        iteratorTypes loopBounds (loopDepth + 1)
        (offsets ++ [OpFoldResult.attr 0]) distributionInfo := by
  conv_lhs => rw [tileLinalgExtOpImpl.eq_def]
  rw [dif_neg (by omega), if_pos hu]

/-- C6: the options validator fails exactly when a non-empty interchange
permutation is given, or a padding-value computation function is given, or
the loop form is not explicit `scf.for` loops, or a distribution policy has
a non-cyclic method for some dimension; otherwise it succeeds.  The check
is a pure function of the options (no side effects) and is performed by
`matchAndRewriteBase` before any rewrite. -/
theorem verify_options_ok_iff (options : LinalgTilingOptions) :
    verifySupportedTilingOptions options = .ok () ↔
      (options.interchangeVector = [] ∧
       options.paddingValueComputationFunction = false ∧
       options.loopType = LinalgTilingLoopType.Loops ∧
       ∀ dist, options.distribution = some dist →
         ∀ method ∈ dist.distributionMethod,
           method = DistributionMethod.Cyclic) := by
  unfold verifySupportedTilingOptions
  cases hdist : options.distribution with
  | none =>
    split_ifs with h1 h2 h3 <;>
      simp_all [List.isEmpty_iff]
  | some dist =>
    split_ifs with h1 h2 h3 <;>
      simp_all [List.isEmpty_iff, List.any_eq_true]

theorem untiled_dim_step_witness :
    0 < ([OpFoldResult.attr 0, OpFoldResult.attr 10] : List OpFoldResult).length
      ∧
    isUntiledLoop
      (([OpFoldResult.attr 0, OpFoldResult.attr 10] :
        List OpFoldResult).getD 0 default) = true ∧
    tileLinalgExtOpImpl sampleInterface [] [.attr 0, .attr 10]
        ["parallel", "parallel"] sampleBounds 0 [] [] =
      tileLinalgExtOpImpl sampleInterface []
        (([OpFoldResult.attr 0, OpFoldResult.attr 10] :
          List OpFoldResult).set 0
          (getOpFoldResult (sampleBounds.getD 0 default).size))
        ["parallel", "parallel"] sampleBounds 1
        ([] ++ [OpFoldResult.attr 0]) [] :=
  ⟨by decide, by decide,
    untiled_dim_step sampleInterface [] [.attr 0, .attr 10]
      ["parallel", "parallel"] sampleBounds 0 [] [] (by decide) (by decide)⟩

/-- C4: when every tile size — after constant folding, truncation and zero
padding to the dimension count — is statically zero, `tileLinalgExtOp`
succeeds and returns the original operation with an empty loop list and an
empty result list. -/
theorem tile_all_zero_noop (op : LinalgExtOp) (options : LinalgTilingOptions)
    (tilableOp : TiledOpInterface)
    (hif : op.tiledOpInterface = some tilableOp)
    (hall : (paddedTileSizes options tilableOp).all isUntiledLoop = true) :
    tileLinalgExtOp op options =
      .ok { op := some Operation.original, loops := [], results := [] } := by
  unfold tileLinalgExtOp
  rw [hif]
  have hlen := paddedTileSizes_length options tilableOp
  have hany : ((List.range tilableOp.loopIteratorTypes.length).any fun i =>
      !(tilableOp.loopIteratorTypes.getD i "" == parallelIteratorTypeName) &&
      !(isUntiledLoop ((paddedTileSizes options tilableOp).getD i default)))
        = false := by
    rw [List.any_eq_false]
    intro i hi
    have hilt : i < (paddedTileSizes options tilableOp).length := by
      rw [hlen]
      exact List.mem_range.1 hi
    have hmem : (paddedTileSizes options tilableOp).getD i default
        ∈ paddedTileSizes options tilableOp := by
      rw [List.getD_eq_getElem _ _ hilt]
      exact List.getElem_mem hilt
    have := List.all_eq_true.1 hall _ hmem
    simp only [this, Bool.not_true, Bool.and_false]
    simp
  simp only [hany, hall, Bool.false_eq_true, if_false, if_true]

theorem tile_all_zero_noop_witness :
    sampleOp.tiledOpInterface = some sampleInterface ∧
    (paddedTileSizes { tileSizeComputationFunction := [.constIndex 0] }
      sampleInterface).all isUntiledLoop = true ∧
    tileLinalgExtOp sampleOp { tileSizeComputationFunction := [.constIndex 0] }
      = .ok { op := some Operation.original, loops := [], results := [] } :=
  ⟨rfl, by decide,
    tile_all_zero_noop sampleOp _ sampleInterface rfl (by decide)⟩

/-- C5: if the operation implements the capability and some dimension whose
iterator kind is not "parallel" has a tile size that is not statically
zero, `tileLinalgExtOp` fails with the "unimplemented" operation error; no
loop is built (the error is returned before the loop bounds are even
queried). -/
theorem tile_nonparallel_unimplemented (op : LinalgExtOp)
    (options : LinalgTilingOptions) (tilableOp : TiledOpInterface) (i : Nat)
    (hif : op.tiledOpInterface = some tilableOp)
    (hi : i < tilableOp.loopIteratorTypes.length)
    (hnp : tilableOp.loopIteratorTypes.getD i "" ≠ parallelIteratorTypeName)
    (ht : isUntiledLoop ((paddedTileSizes options tilableOp).getD i default)
      = false) :
    tileLinalgExtOp op options =
      .error "unimplemented tiling of non-parallel loop iterator type" := by
  unfold tileLinalgExtOp
  rw [hif]
  have hany : ((List.range tilableOp.loopIteratorTypes.length).any fun j =>
      !(tilableOp.loopIteratorTypes.getD j "" == parallelIteratorTypeName) &&
      !(isUntiledLoop ((paddedTileSizes options tilableOp).getD j default)))
        = true := by
    rw [List.any_eq_true]
    refine ⟨i, List.mem_range.2 hi, ?_⟩
    rw [Bool.and_eq_true, Bool.not_eq_true', Bool.not_eq_true']
    exact ⟨beq_eq_false_iff_ne.2 hnp, ht⟩
  simp only [hany, if_true]

theorem tile_nonparallel_unimplemented_witness :
    sampleReduceOp.tiledOpInterface = some sampleReduceInterface ∧
    1 < sampleReduceInterface.loopIteratorTypes.length ∧
    sampleReduceInterface.loopIteratorTypes.getD 1 "" ≠
      parallelIteratorTypeName ∧
    isUntiledLoop
      ((paddedTileSizes sampleOptionsBoth sampleReduceInterface).getD 1
        default) = false ∧
    tileLinalgExtOp sampleReduceOp sampleOptionsBoth =
      .error "unimplemented tiling of non-parallel loop iterator type" :=
  ⟨rfl, by decide, by decide, by decide,
    tile_nonparallel_unimplemented sampleReduceOp sampleOptionsBoth
      sampleReduceInterface 1 rfl (by decide) (by decide) (by decide)⟩

/-!
Lemmas about the enumeration of loop induction values.
-/

theorem loopIVsAux_lt (step ub : Int) :
    ∀ (fuel : Nat) (lb : Int) (i : Nat),
      i < (loopIVsAux step ub fuel lb).length →
      (loopIVsAux step ub fuel lb).getD i 0 < ub := by
  intro fuel
  induction fuel with
  | zero => simp [loopIVsAux]
  | succ fuel ih =>
    intro lb i hi
    by_cases hlt : lb < ub
    · rw [loopIVsAux, if_pos hlt] at hi ⊢
      match i with
      | 0 => simpa using hlt
      | i + 1 =>
        simp only [List.getD_cons_succ]
        exact ih (lb + step) i (by simpa using hi)
    · rw [loopIVsAux, if_neg hlt] at hi
      simp at hi

theorem loopIVsAux_head (step ub : Int) :
    ∀ (fuel : Nat) (lb : Int),
      0 < (loopIVsAux step ub fuel lb).length →
      (loopIVsAux step ub fuel lb).getD 0 0 = lb := by
  intro fuel
  cases fuel with
  | zero => simp [loopIVsAux]
  | succ fuel =>
    intro lb h
    by_cases hlt : lb < ub
    · rw [loopIVsAux, if_pos hlt]
      rfl
    · rw [loopIVsAux, if_neg hlt] at h
      simp at h

theorem loopIVsAux_chain (step ub : Int) :
    ∀ (fuel : Nat) (lb : Int) (i : Nat),
      i + 1 < (loopIVsAux step ub fuel lb).length →
      (loopIVsAux step ub fuel lb).getD (i + 1) 0 =
        (loopIVsAux step ub fuel lb).getD i 0 + step := by
  intro fuel
  induction fuel with
  | zero => simp [loopIVsAux]
  | succ fuel ih =>
    intro lb i hi
    by_cases hlt : lb < ub
    · rw [loopIVsAux, if_pos hlt] at hi ⊢
      match i with
      | 0 =>
        simp only [List.getD_cons_succ, List.getD_cons_zero]
        exact loopIVsAux_head step ub fuel (lb + step) (by simpa using hi)
      | i + 1 =>
        simp only [List.getD_cons_succ]
        exact ih (lb + step) i (by simpa using hi)
    · rw [loopIVsAux, if_neg hlt] at hi
      simp at hi

/-- C1: in a tiled loop over `[lb, ub)` whose step is at least the declared
tile size (the step is the tile size itself for an undistributed loop, and
the tile size times the processor count for a cyclically distributed one),
the tile size used by iteration `i` is the clamped value
`min (declared size) (ub - iv)` produced by the `affine.min`; it therefore
never exceeds `ub` minus the current offset, and for every iteration except
the last it equals the declared tile size. -/
theorem tiled_loop_tile_sizes_clamped (lb ub step tileSize : Int)
    (hstep : tileSize ≤ step) (i : Nat)
    (hi : i < (loopIVs lb ub step).length) :
    (inBoundsTileSizes lb ub step tileSize).getD i 0 =
      evalAffineMin ((loopIVs lb ub step).getD i 0) tileSize ub ∧
    (inBoundsTileSizes lb ub step tileSize).getD i 0 ≤
      ub - (loopIVs lb ub step).getD i 0 ∧
    (i + 1 < (loopIVs lb ub step).length →
      (inBoundsTileSizes lb ub step tileSize).getD i 0 = tileSize) := by
  have hmap : (inBoundsTileSizes lb ub step tileSize).getD i 0 =
      evalAffineMin ((loopIVs lb ub step).getD i 0) tileSize ub := by
    unfold inBoundsTileSizes
    rw [List.getD_eq_getElem _ _ (by simpa using hi),
      List.getD_eq_getElem _ _ hi]
    simp [evalAffineMin]
  refine ⟨hmap, ?_, ?_⟩
  · rw [hmap]
    exact min_le_right _ _
  · intro hnext
    rw [hmap]
    have hchain := loopIVsAux_chain step ub (ub - lb).toNat lb i hnext
    have hlt := loopIVsAux_lt step ub (ub - lb).toNat lb (i + 1) hnext
    unfold loopIVs
    unfold loopIVs at hchain hlt
    rw [hchain] at hlt
    unfold evalAffineMin
    omega

theorem tiled_loop_tile_sizes_clamped_witness :
    (10 : Int) ≤ 10 ∧ 8 < (loopIVs 0 95 10).length ∧
    ((inBoundsTileSizes 0 95 10 10).getD 8 0 =
        evalAffineMin ((loopIVs 0 95 10).getD 8 0) 10 95 ∧
      (inBoundsTileSizes 0 95 10 10).getD 8 0 ≤
        95 - (loopIVs 0 95 10).getD 8 0 ∧
      (8 + 1 < (loopIVs 0 95 10).length →
        (inBoundsTileSizes 0 95 10 10).getD 8 0 = 10)) :=
  ⟨by decide, by decide,
    tiled_loop_tile_sizes_clamped 0 95 10 10 (by decide) 8 (by decide)⟩

/-!
Structural lemmas about the recursive loop nest builder.
-/

theorem appendGeneratedLoop_ok (forOp : Operation) (loopDepth numInit : Nat)
    (r : Except String TiledOp) (t : TiledOp)
    (h : appendGeneratedLoop forOp loopDepth numInit r = .ok t) :
    ∃ inner, r = .ok inner ∧
      t = { inner with
            loops := forOp :: inner.loops,
            results := (List.range numInit).map (Val.forResult loopDepth) } := by
  cases r with
  | error e => simp [appendGeneratedLoop] at h
  | ok inner =>
    refine ⟨inner, rfl, ?_⟩
    simp [appendGeneratedLoop] at h
    exact h.symm

theorem appendGeneratedLoop_error (forOp : Operation) (loopDepth numInit : Nat)
    (r : Except String TiledOp) (e : String) (h : r = .error e) :
    appendGeneratedLoop forOp loopDepth numInit r = .error e := by
  rw [h]
  rfl

/-- Loops generated by the recursive builder from depth `loopDepth` on: one
per remaining dimension whose tile size is not statically zero, recorded
outermost first, in increasing dimension order. -/
theorem impl_loops_aux (op : TiledOpInterface) (iteratorTypes : List String)
    (loopBounds : List Range) :
    ∀ (k : Nat) (tileSizes : List OpFoldResult) (loopDepth : Nat)
      (outputs : List Val) (offsets : List OpFoldResult)
      (distributionInfo : List ProcInfo) (t : TiledOp),
      tileSizes.length - loopDepth = k →
      tileLinalgExtOpImpl op outputs tileSizes iteratorTypes loopBounds
        loopDepth offsets distributionInfo = .ok t →
      t.loops.map Operation.forDepth =
        (List.range' loopDepth k).filter
          (fun i => !(isUntiledLoop (tileSizes.getD i default))) := by
  intro k
  induction k with
  | zero =>
    intro tileSizes loopDepth outputs offsets distributionInfo t hk hok
    rw [tileLinalgExtOpImpl.eq_def, dif_pos (by omega)] at hok
    unfold tileLinalgExtOpLeaf at hok
    split at hok
    · simp at hok
    · split at hok
      · cases hok
        simp
      · cases hok
        simp
  | succ k ih =>
    intro tileSizes loopDepth outputs offsets distributionInfo t hk hok
    rw [tileLinalgExtOpImpl.eq_def, dif_neg (by omega)] at hok
    rw [List.range'_succ, List.filter_cons]
    by_cases hu : isUntiledLoop (tileSizes.getD loopDepth default) = true
    · rw [if_pos hu] at hok
      rw [hu]
      have hkset : (tileSizes.set loopDepth
          (getOpFoldResult (loopBounds.getD loopDepth default).size)).length
            - (loopDepth + 1) = k := by
        rw [List.length_set]
        omega
      rw [ih _ _ _ _ _ _ hkset hok]
      simp only [Bool.not_true, Bool.false_eq_true, if_false]
      refine List.filter_congr fun i hmem => ?_
      have hne : loopDepth ≠ i := by
        have := (List.mem_range'_1.1 hmem).1
        omega
      rw [getD_set_of_ne _ _ _ _ _ hne]
    · rw [if_neg hu] at hok
      rw [Bool.not_eq_true] at hu
      rw [hu]
      by_cases hs : isStaticallyOne (loopBounds.getD loopDepth default).stride
        = true
      · rw [if_neg (not_not_intro hs)] at hok
        obtain ⟨inner, hrec, ht⟩ := appendGeneratedLoop_ok _ _ _ _ _ hok
        have hinner := ih _ _ _ _ _ inner
          (by rw [List.length_set]; omega) hrec
        rw [ht]
        simp only [List.map_cons, Operation.forDepth, Bool.not_false, if_true]
        rw [hinner]
        congr 1
        refine List.filter_congr fun i hmem => ?_
        have hne : loopDepth ≠ i := by
          have := (List.mem_range'_1.1 hmem).1
          omega
        rw [getD_set_of_ne _ _ _ _ _ hne]
      · rw [if_pos hs] at hok
        simp at hok

/-- C2: for every successful run of `tileLinalgExtOp` on an operation that
implements the capability, the generated loops correspond exactly to the
dimensions whose tile size is not statically zero, listed outermost first
in increasing dimension order; in particular the number of generated loop
constructs equals the number of such dimensions. -/
theorem tile_loop_count_and_order (op : LinalgExtOp)
    (options : LinalgTilingOptions) (tilableOp : TiledOpInterface)
    (t : TiledOp) (hif : op.tiledOpInterface = some tilableOp)
    (hok : tileLinalgExtOp op options = .ok t) :
    t.loops.map Operation.forDepth =
      (List.range tilableOp.loopIteratorTypes.length).filter
        (fun i => !(isUntiledLoop
          ((paddedTileSizes options tilableOp).getD i default))) ∧
    t.loops.length =
      ((List.range tilableOp.loopIteratorTypes.length).filter
        (fun i => !(isUntiledLoop
          ((paddedTileSizes options tilableOp).getD i default)))).length := by
  have hlen := paddedTileSizes_length options tilableOp
  unfold tileLinalgExtOp at hok
  rw [hif] at hok
  dsimp only [] at hok
  have hmain : t.loops.map Operation.forDepth =
      (List.range tilableOp.loopIteratorTypes.length).filter
        (fun i => !(isUntiledLoop
          ((paddedTileSizes options tilableOp).getD i default))) := by
    cases hany : (List.range tilableOp.loopIteratorTypes.length).any
        (fun i =>
          !(tilableOp.loopIteratorTypes.getD i "" ==
            parallelIteratorTypeName) &&
          !(isUntiledLoop
            ((paddedTileSizes options tilableOp).getD i default))) with
    | true =>
      rw [if_pos hany] at hok
      simp at hok
    | false =>
      rw [if_neg (by rw [hany]; exact Bool.false_ne_true)] at hok
      cases hall : (paddedTileSizes options tilableOp).all isUntiledLoop with
      | true =>
        rw [if_pos hall] at hok
        cases hok
        simp only [TiledOp.loops, List.map_nil]
        symm
        rw [List.filter_eq_nil_iff]
        intro i hi
        have hilt : i < (paddedTileSizes options tilableOp).length := by
          rw [hlen]
          exact List.mem_range.1 hi
        have hmem : (paddedTileSizes options tilableOp).getD i default
            ∈ paddedTileSizes options tilableOp := by
          rw [List.getD_eq_getElem _ _ hilt]
          exact List.getElem_mem hilt
        have hfact := List.all_eq_true.1 hall _ hmem
        simp only [hfact, Bool.not_true]
        exact Bool.false_ne_true
      | false =>
        rw [if_neg (by rw [hall]; exact Bool.false_ne_true)] at hok
        have := impl_loops_aux tilableOp tilableOp.loopIteratorTypes
          tilableOp.loopBounds (paddedTileSizes options tilableOp).length
          (paddedTileSizes options tilableOp) 0 op.outputs [] _ t
          (Nat.sub_zero _) hok
        rw [this, hlen, ← List.range_eq_range']
  exact ⟨hmain, by rw [← hmain, List.length_map]⟩

theorem tile_loop_count_and_order_witness :
    sampleOp.tiledOpInterface = some sampleInterface ∧
    tileLinalgExtOp sampleOp sampleOptions =
      .ok { op := some (.tiledLeaf 0),
            loops := [.scfFor 0 (.constIndex 0) (.constIndex 100)
              (.constIndex 10) none],
            results := [] } ∧
    ({ op := some (.tiledLeaf 0),
       loops := [.scfFor 0 (.constIndex 0) (.constIndex 100)
         (.constIndex 10) none],
       results := [] } : TiledOp).loops.map Operation.forDepth =
      (List.range sampleInterface.loopIteratorTypes.length).filter
        (fun i => !(isUntiledLoop
          ((paddedTileSizes sampleOptions sampleInterface).getD i default))) ∧
    ({ op := some (.tiledLeaf 0),
       loops := [.scfFor 0 (.constIndex 0) (.constIndex 100)
         (.constIndex 10) none],
       results := [] } : TiledOp).loops.length =
      ((List.range sampleInterface.loopIteratorTypes.length).filter
        (fun i => !(isUntiledLoop
          ((paddedTileSizes sampleOptions sampleInterface).getD i
            default)))).length := by
  have hev : tileLinalgExtOp sampleOp sampleOptions =
      .ok { op := some (.tiledLeaf 0),
            loops := [.scfFor 0 (.constIndex 0) (.constIndex 100)
              (.constIndex 10) none],
            results := [] } := by
    simp [tileLinalgExtOp, tileLinalgExtOpImpl, tileLinalgExtOpLeaf,
      appendGeneratedLoop, sampleOp, sampleOptions, sampleInterface,
      sampleBounds, paddedTileSizes, resizeTileSizes, getOpFoldResultVector,
      getOpFoldResult, isUntiledLoop, isStaticallyOne, getValue,
      parallelIteratorTypeName]
    decide
  have h := tile_loop_count_and_order sampleOp sampleOptions sampleInterface
    _ rfl hev
  exact ⟨rfl, hev, h.1, h.2⟩


theorem impl_dist_aux (op : TiledOpInterface) (iteratorTypes : List String)
    (loopBounds : List Range) :
    ∀ (k : Nat) (tileSizes : List OpFoldResult) (loopDepth : Nat)
      (outputs : List Val) (offsets : List OpFoldResult)
      (distributionInfo : List ProcInfo) (t : TiledOp),
      tileSizes.length - loopDepth = k →
      distributionInfo.length =
        ((List.range' loopDepth k).filter
          (isTiledParallel tileSizes iteratorTypes)).length →
      tileLinalgExtOpImpl op outputs tileSizes iteratorTypes loopBounds
        loopDepth offsets distributionInfo = .ok t →
      t.loops.filterMap Operation.distAssignment =
        ((List.range' loopDepth k).filter
          (isTiledParallel tileSizes iteratorTypes)).zip distributionInfo := by
  intro k
  induction k with
  | zero =>
    intro tileSizes loopDepth outputs offsets distributionInfo t hk hlen hok
    rw [tileLinalgExtOpImpl.eq_def, dif_pos (by omega)] at hok
    unfold tileLinalgExtOpLeaf at hok
    split at hok
    · simp at hok
    · split at hok
      · cases hok
        simp
      · cases hok
        simp
  | succ k ih =>
    intro tileSizes loopDepth outputs offsets distributionInfo t hk hlen hok
    rw [tileLinalgExtOpImpl.eq_def, dif_neg (by omega)] at hok
    rw [List.range'_succ, List.filter_cons] at hlen ⊢
    by_cases hu : isUntiledLoop (tileSizes.getD loopDepth default) = true
    · rw [if_pos hu] at hok
      have hp : isTiledParallel tileSizes iteratorTypes loopDepth = false := by
        unfold isTiledParallel
        rw [hu]
        simp only [Bool.not_true, Bool.false_and]
      rw [hp] at hlen ⊢
      simp only [Bool.false_eq_true, if_false] at hlen ⊢
      have hcong : ∀ i ∈ List.range' (loopDepth + 1) k,
          isTiledParallel (tileSizes.set loopDepth
            (getOpFoldResult (loopBounds.getD loopDepth default).size))
            iteratorTypes i = isTiledParallel tileSizes iteratorTypes i := by
        intro i hmem
        have hne : loopDepth ≠ i := by
          have := (List.mem_range'_1.1 hmem).1
          omega
        unfold isTiledParallel
        rw [getD_set_of_ne _ _ _ _ _ hne]
      have := ih _ _ _ _ _ t (by rw [List.length_set]; omega)
        (by rw [List.filter_congr hcong]; exact hlen) hok
      rw [this, List.filter_congr hcong]
    · rw [if_neg hu] at hok
      rw [Bool.not_eq_true] at hu
      by_cases hs : isStaticallyOne (loopBounds.getD loopDepth default).stride
        = true
      · rw [if_neg (not_not_intro hs)] at hok
        by_cases hpar : iteratorTypes.getD loopDepth "" =
          parallelIteratorTypeName
        · have hp : isTiledParallel tileSizes iteratorTypes loopDepth
              = true := by
            unfold isTiledParallel
            rw [hu, hpar]
            simp only [Bool.not_false, Bool.true_and, beq_self_eq_true]
          rw [hp] at hlen ⊢
          simp only [if_true] at hlen ⊢
          cases distributionInfo with
          | nil => simp at hlen
          | cons front rest =>
            rw [if_pos hpar] at hok
            simp only [List.head?_cons, Option.elim_some] at hok
            obtain ⟨inner, hrec, ht⟩ := appendGeneratedLoop_ok _ _ _ _ _ hok
            have hcong : ∀ i ∈ List.range' (loopDepth + 1) k,
                isTiledParallel (tileSizes.set loopDepth
                  (getOpFoldResult (Val.affineMin (Val.iv loopDepth)
                    (getValue (tileSizes.getD loopDepth default))
                    (updateBoundsForCyclicDistribution front.procId
                      front.nprocs (loopBounds.getD loopDepth default).offset
                      (loopBounds.getD loopDepth default).size
                      (getValue (tileSizes.getD loopDepth default))).2.1)))
                  iteratorTypes i
                  = isTiledParallel tileSizes iteratorTypes i := by
              intro i hmem
              have hne : loopDepth ≠ i := by
                have := (List.mem_range'_1.1 hmem).1
                omega
              unfold isTiledParallel
              rw [getD_set_of_ne _ _ _ _ _ hne]
            have hlen2 : rest.length = ((List.range' (loopDepth + 1) k).filter
                (isTiledParallel tileSizes iteratorTypes)).length := by
              simp at hlen
              omega
            have hinner := ih _ _ _ _ _ inner
              (by rw [List.length_set]; omega)
              (by rw [List.filter_congr hcong]; simp [List.drop_one] at hrec ⊢; exact hlen2) hrec
            rw [ht]
            simp only [List.filterMap_cons, Operation.distAssignment]
            rw [hinner, List.filter_congr hcong]
            simp [List.drop_one]
        · have hp : isTiledParallel tileSizes iteratorTypes loopDepth
              = false := by
            unfold isTiledParallel
            rw [hu]
            simp only [Bool.not_false, Bool.true_and]
            exact beq_eq_false_iff_ne.2 hpar
          rw [hp] at hlen ⊢
          simp only [Bool.false_eq_true, if_false] at hlen ⊢
          rw [if_neg hpar] at hok
          simp only [Option.elim_none] at hok
          obtain ⟨inner, hrec, ht⟩ := appendGeneratedLoop_ok _ _ _ _ _ hok
          have hcong : ∀ i ∈ List.range' (loopDepth + 1) k,
              isTiledParallel (tileSizes.set loopDepth
                (getOpFoldResult (Val.affineMin (Val.iv loopDepth)
                  (getValue (tileSizes.getD loopDepth default))
                  (loopBounds.getD loopDepth default).size)))
                iteratorTypes i
                = isTiledParallel tileSizes iteratorTypes i := by
            intro i hmem
            have hne : loopDepth ≠ i := by
              have := (List.mem_range'_1.1 hmem).1
              omega
            unfold isTiledParallel
            rw [getD_set_of_ne _ _ _ _ _ hne]
          have hinner := ih _ _ _ _ _ inner
            (by rw [List.length_set]; omega)
            (by rw [List.filter_congr hcong]; exact hlen) hrec
          rw [ht]
          simp only [List.filterMap_cons, Operation.distAssignment]
          rw [hinner, List.filter_congr hcong]
      · rw [if_pos hs] at hok
        simp at hok


theorem distributedLoopRanges_eq (tileSizes : List OpFoldResult)
    (iteratorTypes : List String) (loopBounds : List Range) :
    distributedLoopRanges tileSizes iteratorTypes loopBounds =
      (tiledParallelDims tileSizes iteratorTypes).map
        (fun i => loopBounds.getD i default) := by
  unfold distributedLoopRanges tiledParallelDims
  generalize List.range tileSizes.length = l
  induction l with
  | nil => rfl
  | cons a l ihl =>
    rw [List.filterMap_cons, List.filter_cons]
    by_cases h1 : isUntiledLoop (tileSizes.getD a default) = true
    · have hp : isTiledParallel tileSizes iteratorTypes a = false := by
        unfold isTiledParallel
        rw [h1]
        simp only [Bool.not_true, Bool.false_and]
      rw [if_pos h1, hp]
      simp only [Bool.false_eq_true, if_false]
      exact ihl
    · rw [Bool.not_eq_true] at h1
      by_cases h2 : iteratorTypes.getD a "" = parallelIteratorTypeName
      · have hp : isTiledParallel tileSizes iteratorTypes a = true := by
          unfold isTiledParallel
          rw [h1, h2]
          simp only [Bool.not_false, Bool.true_and, beq_self_eq_true]
        rw [if_neg (by rw [h1]; exact Bool.false_ne_true),
          if_neg (not_not_intro h2), hp]
        simp only [if_true, List.map_cons]
        rw [ihl]
      · have hp : isTiledParallel tileSizes iteratorTypes a = false := by
          unfold isTiledParallel
          rw [h1]
          simp only [Bool.not_false, Bool.true_and]
          exact beq_eq_false_iff_ne.2 h2
        rw [if_neg (by rw [h1]; exact Bool.false_ne_true), if_pos h2, hp]
        simp only [Bool.false_eq_true, if_false]
        exact ihl

/-- C3: when a distribution policy is supplied (and honours the contract of
returning one entry per requested range), the policy is invoked with
exactly the bounds of the dimensions that are both tiled and parallel, in
increasing dimension order, and on success the generated loops consume the
returned entries front-to-back in that same dimension order — one entry
per tiled parallel dimension, and no entry is ever assigned to a loop of a
non-parallel or untiled dimension. -/
theorem tile_distribution_order (op : LinalgExtOp)
    (options : LinalgTilingOptions) (tilableOp : TiledOpInterface)
    (dopts : LinalgLoopDistributionOptions) (t : TiledOp)
    (hif : op.tiledOpInterface = some tilableOp)
    (hdist : options.distribution = some dopts)
    (hpol : ∀ ranges, (dopts.procInfo ranges).length = ranges.length)
    (hok : tileLinalgExtOp op options = .ok t) :
    distributedLoopRanges (paddedTileSizes options tilableOp)
        tilableOp.loopIteratorTypes tilableOp.loopBounds =
      (tiledParallelDims (paddedTileSizes options tilableOp)
        tilableOp.loopIteratorTypes).map
        (fun i => tilableOp.loopBounds.getD i default) ∧
    t.loops.filterMap Operation.distAssignment =
      (tiledParallelDims (paddedTileSizes options tilableOp)
        tilableOp.loopIteratorTypes).zip
        (dopts.procInfo (distributedLoopRanges
          (paddedTileSizes options tilableOp) tilableOp.loopIteratorTypes
          tilableOp.loopBounds)) := by
  have hlen := paddedTileSizes_length options tilableOp
  refine ⟨distributedLoopRanges_eq _ _ _, ?_⟩
  unfold tileLinalgExtOp at hok
  rw [hif] at hok
  dsimp only [] at hok
  cases hany : (List.range tilableOp.loopIteratorTypes.length).any
      (fun i =>
        !(tilableOp.loopIteratorTypes.getD i "" ==
          parallelIteratorTypeName) &&
        !(isUntiledLoop
          ((paddedTileSizes options tilableOp).getD i default))) with
  | true =>
    rw [if_pos hany] at hok
    simp at hok
  | false =>
    rw [if_neg (by rw [hany]; exact Bool.false_ne_true)] at hok
    cases hall : (paddedTileSizes options tilableOp).all isUntiledLoop with
    | true =>
      rw [if_pos hall] at hok
      cases hok
      have hnil : tiledParallelDims (paddedTileSizes options tilableOp)
          tilableOp.loopIteratorTypes = [] := by
        unfold tiledParallelDims
        rw [List.filter_eq_nil_iff]
        intro i hi
        have hilt : i < (paddedTileSizes options tilableOp).length :=
          List.mem_range.1 hi
        have hmem : (paddedTileSizes options tilableOp).getD i default
            ∈ paddedTileSizes options tilableOp := by
          rw [List.getD_eq_getElem _ _ hilt]
          exact List.getElem_mem hilt
        have hfact := List.all_eq_true.1 hall _ hmem
        unfold isTiledParallel
        rw [hfact]
        simp only [Bool.not_true, Bool.false_and]
        exact Bool.false_ne_true
      rw [hnil]
      simp
    | false =>
      rw [if_neg (by rw [hall]; exact Bool.false_ne_true)] at hok
      rw [hdist] at hok
      dsimp only [] at hok
      have hdl : (dopts.procInfo (distributedLoopRanges
          (paddedTileSizes options tilableOp) tilableOp.loopIteratorTypes
          tilableOp.loopBounds)).length =
          ((List.range' 0 (paddedTileSizes options tilableOp).length).filter
            (isTiledParallel (paddedTileSizes options tilableOp)
              tilableOp.loopIteratorTypes)).length := by
        rw [hpol, distributedLoopRanges_eq, List.length_map]
        unfold tiledParallelDims
        rw [List.range_eq_range']
      have := impl_dist_aux tilableOp tilableOp.loopIteratorTypes
        tilableOp.loopBounds (paddedTileSizes options tilableOp).length
        (paddedTileSizes options tilableOp) 0 op.outputs [] _ t
        (Nat.sub_zero _) hdl hok
      rw [this]
      unfold tiledParallelDims
      rw [List.range_eq_range']


set_option maxRecDepth 10000 in
theorem tile_distribution_order_witness :
    sampleDistOp.tiledOpInterface = some sampleDistInterface ∧
    sampleDistOptions.distribution = some sampleDistPolicy ∧
    (∀ ranges, (sampleDistPolicy.procInfo ranges).length = ranges.length) ∧
    tileLinalgExtOp sampleDistOp sampleDistOptions = .ok sampleDistResult ∧
    (distributedLoopRanges (paddedTileSizes sampleDistOptions
        sampleDistInterface) sampleDistInterface.loopIteratorTypes
        sampleDistInterface.loopBounds =
      (tiledParallelDims (paddedTileSizes sampleDistOptions
        sampleDistInterface) sampleDistInterface.loopIteratorTypes).map
        (fun i => sampleDistInterface.loopBounds.getD i default) ∧
    sampleDistResult.loops.filterMap Operation.distAssignment =
      (tiledParallelDims (paddedTileSizes sampleDistOptions
        sampleDistInterface) sampleDistInterface.loopIteratorTypes).zip
        (sampleDistPolicy.procInfo (distributedLoopRanges
          (paddedTileSizes sampleDistOptions sampleDistInterface)
          sampleDistInterface.loopIteratorTypes
          sampleDistInterface.loopBounds))) := by
  have hpol : ∀ ranges, (sampleDistPolicy.procInfo ranges).length
      = ranges.length := by
    intro ranges
    simp [sampleDistPolicy]
  have hev : tileLinalgExtOp sampleDistOp sampleDistOptions =
      .ok sampleDistResult := by
    have hts : paddedTileSizes sampleDistOptions sampleDistInterface =
        [.attr 10, .attr 0, .attr 30] := by decide
    unfold tileLinalgExtOp
    rw [show sampleDistOp.tiledOpInterface = some sampleDistInterface from rfl]
    dsimp only []
    rw [hts]
    rw [if_neg (by decide), if_neg (by decide)]
    rw [show sampleDistOptions.distribution = some sampleDistPolicy from rfl]
    dsimp only []
    have hpi : sampleDistPolicy.procInfo (distributedLoopRanges
        [.attr 10, .attr 0, .attr 30] sampleDistInterface.loopIteratorTypes
        sampleDistInterface.loopBounds) =
        [⟨.var 0, .var 100⟩, ⟨.var 1, .var 101⟩] := by decide
    rw [hpi]
    simp [tileLinalgExtOpImpl, tileLinalgExtOpLeaf, appendGeneratedLoop,
      sampleDistInterface, sampleDistResult, isUntiledLoop, isStaticallyOne,
      getValue, getOpFoldResult, parallelIteratorTypeName,
      updateBoundsForCyclicDistribution]
  exact ⟨rfl, rfl, hpol, hev,
    tile_distribution_order sampleDistOp sampleDistOptions
      sampleDistInterface sampleDistPolicy sampleDistResult rfl rfl hpol hev⟩


/-- Reaching any dimension (at or after the current depth) that is tiled
and whose loop-bound stride is not statically 1 makes the recursive builder
fail with the stride error, which propagates unchanged to the root. -/
theorem impl_stride_error_aux (op : TiledOpInterface)
    (iteratorTypes : List String) (loopBounds : List Range) :
    ∀ (k : Nat) (tileSizes : List OpFoldResult) (loopDepth : Nat)
      (outputs : List Val) (offsets : List OpFoldResult)
      (distributionInfo : List ProcInfo),
      tileSizes.length - loopDepth = k →
      (∃ i, loopDepth ≤ i ∧ i < tileSizes.length ∧
        isUntiledLoop (tileSizes.getD i default) = false ∧
        isStaticallyOne (loopBounds.getD i default).stride = false) →
      tileLinalgExtOpImpl op outputs tileSizes iteratorTypes loopBounds
        loopDepth offsets distributionInfo =
        .error "expected stride to be 1" := by
  intro k
  induction k with
  | zero =>
    intro tileSizes loopDepth outputs offsets distributionInfo hk hex
    obtain ⟨i, hdi, hilt, _, _⟩ := hex
    omega
  | succ k ih =>
    intro tileSizes loopDepth outputs offsets distributionInfo hk hex
    rw [tileLinalgExtOpImpl.eq_def, dif_neg (by omega)]
    obtain ⟨i, hdi, hilt, hiu, his⟩ := hex
    by_cases hu : isUntiledLoop (tileSizes.getD loopDepth default) = true
    · rw [if_pos hu]
      have hne : loopDepth ≠ i := by
        intro heq
        rw [heq] at hu
        rw [hu] at hiu
        exact Bool.noConfusion hiu
      refine ih _ _ _ _ _ (by rw [List.length_set]; omega) ?_
      refine ⟨i, by omega, by rw [List.length_set]; exact hilt, ?_, his⟩
      rw [getD_set_of_ne _ _ _ _ _ hne]
      exact hiu
    · rw [if_neg hu]
      by_cases hsd : isStaticallyOne (loopBounds.getD loopDepth default).stride
        = true
      · have hne : loopDepth ≠ i := by
          intro heq
          rw [heq] at hsd
          rw [hsd] at his
          exact Bool.noConfusion his
        rw [if_neg (not_not_intro hsd)]
        refine appendGeneratedLoop_error _ _ _ _ _
          (ih _ _ _ _ _ (by rw [List.length_set]; omega) ?_)
        refine ⟨i, by omega, by rw [List.length_set]; exact hilt, ?_, his⟩
        rw [getD_set_of_ne _ _ _ _ _ hne]
        exact hiu
      · rw [if_pos hsd]

/-- Amended C8 (entry level): if some dimension that is actually tiled
(tile size not statically zero) has a loop-bound stride that is not
statically 1 — and the request passes the non-parallel check — then
`tileLinalgExtOp` fails with the stride error instead of producing a tiled
nest.  (Strides of untiled dimensions are never checked; see the
counterexample.) -/
theorem tile_stride_error (op : LinalgExtOp) (options : LinalgTilingOptions)
    (tilableOp : TiledOpInterface)
    (hif : op.tiledOpInterface = some tilableOp)
    (hpar : ∀ j, j < tilableOp.loopIteratorTypes.length →
      tilableOp.loopIteratorTypes.getD j "" ≠ parallelIteratorTypeName →
      isUntiledLoop ((paddedTileSizes options tilableOp).getD j default)
        = true)
    (i : Nat) (hi : i < (paddedTileSizes options tilableOp).length)
    (hiu : isUntiledLoop ((paddedTileSizes options tilableOp).getD i default)
      = false)
    (his : isStaticallyOne ((tilableOp.loopBounds.getD i default).stride)
      = false) :
    tileLinalgExtOp op options = .error "expected stride to be 1" := by
  unfold tileLinalgExtOp
  rw [hif]
  dsimp only []
  have hany : ((List.range tilableOp.loopIteratorTypes.length).any fun j =>
      !(tilableOp.loopIteratorTypes.getD j "" == parallelIteratorTypeName) &&
      !(isUntiledLoop ((paddedTileSizes options tilableOp).getD j default)))
        = false := by
    rw [List.any_eq_false]
    intro j hj hcontra
    rw [Bool.and_eq_true, Bool.not_eq_true', Bool.not_eq_true'] at hcontra
    obtain ⟨hA, hB⟩ := hcontra
    have := hpar j (List.mem_range.1 hj) (beq_eq_false_iff_ne.1 hA)
    rw [this] at hB
    exact Bool.noConfusion hB
  rw [if_neg (by rw [hany]; exact Bool.false_ne_true)]
  have hall : (paddedTileSizes options tilableOp).all isUntiledLoop
      = false := by
    rw [List.all_eq_false]
    refine ⟨(paddedTileSizes options tilableOp).getD i default, ?_, ?_⟩
    · rw [List.getD_eq_getElem _ _ hi]
      exact List.getElem_mem hi
    · rw [hiu]
      exact Bool.noConfusion
  rw [if_neg (by rw [hall]; exact Bool.false_ne_true)]
  exact impl_stride_error_aux tilableOp tilableOp.loopIteratorTypes
    tilableOp.loopBounds (paddedTileSizes options tilableOp).length
    (paddedTileSizes options tilableOp) 0 op.outputs [] _ (Nat.sub_zero _)
    ⟨i, Nat.zero_le i, hi, hiu, his⟩

/-- Counterexample to C8 as stated: the second loop bound has stride 2 (not
statically 1), yet with tile sizes `{10, 0}` the transformation succeeds
and produces a tiled nest with one loop — the stride of an untiled
dimension is never checked. -/
theorem stride_any_dim_counterexample :
    isStaticallyOne
      ((strideTwoUntiledInterface.loopBounds.getD 1 default).stride)
        = false ∧
    tileLinalgExtOp strideTwoUntiledOp sampleOptions =
      .ok { op := some (.tiledLeaf 0),
            loops := [.scfFor 0 (.constIndex 0) (.constIndex 100)
              (.constIndex 10) none],
            results := [] } := by
  constructor
  · decide
  · simp [tileLinalgExtOp, tileLinalgExtOpImpl, tileLinalgExtOpLeaf,
      appendGeneratedLoop, strideTwoUntiledOp, sampleOptions,
      strideTwoUntiledInterface, paddedTileSizes, resizeTileSizes,
      getOpFoldResultVector, getOpFoldResult, isUntiledLoop,
      isStaticallyOne, getValue, parallelIteratorTypeName]
    decide

theorem tile_stride_error_witness :
    strideTwoTiledOp.tiledOpInterface = some strideTwoTiledInterface ∧
    (∀ j, j < strideTwoTiledInterface.loopIteratorTypes.length →
      strideTwoTiledInterface.loopIteratorTypes.getD j "" ≠
        parallelIteratorTypeName →
      isUntiledLoop ((paddedTileSizes sampleOptions
        strideTwoTiledInterface).getD j default) = true) ∧
    0 < (paddedTileSizes sampleOptions strideTwoTiledInterface).length ∧
    isUntiledLoop ((paddedTileSizes sampleOptions
      strideTwoTiledInterface).getD 0 default) = false ∧
    isStaticallyOne
      ((strideTwoTiledInterface.loopBounds.getD 0 default).stride) = false ∧
    tileLinalgExtOp strideTwoTiledOp sampleOptions =
      .error "expected stride to be 1" := by
  have hpar : ∀ j, j < strideTwoTiledInterface.loopIteratorTypes.length →
      strideTwoTiledInterface.loopIteratorTypes.getD j "" ≠
        parallelIteratorTypeName →
      isUntiledLoop ((paddedTileSizes sampleOptions
        strideTwoTiledInterface).getD j default) = true := by
    intro j hj hne
    have hj2 : j < 2 := by simpa [strideTwoTiledInterface] using hj
    interval_cases j <;> simp_all [strideTwoTiledInterface,
      parallelIteratorTypeName]
  exact ⟨rfl, hpar, by decide, by decide, by decide,
    tile_stride_error strideTwoTiledOp sampleOptions strideTwoTiledInterface
      rfl hpar 0 (by decide) (by decide) (by decide)⟩

end IreeLinalgExt
